import Mathlib

/-!
Shallow embedding of the library-catalog Flask application (`src/app.py`).

The relational store (SQLite via SQLAlchemy) is modelled as a `Store` record
holding the five tables as lists of rows, in insertion order.  Primary keys
follow SQLite's default rowid rule: a freshly inserted row receives
`max existing id + 1` (1 on an empty table).  Each route handler becomes a
pure function on `Store`.

Modelling conventions, each tied to the source:
* `email` columns carry `collation='NOCASE'` (app.py line 66), so lookups on
  email compare case-insensitively: `emailEq`.
* `Category.description` has no collation (line 96), so SQLite compares it
  byte-wise: category lookups use plain string equality.
* `Book.isbn` is declared `db.Integer` (line 104), but `addbook` and
  `edit_book` pass the raw form string through with no parsing or validation
  (lines 197, 211, 240, 254) and SQLite's flexible typing stores whatever
  arrives.  The embedding therefore keeps `isbn` as the string handed in;
  `seedDB`'s integer literals 123, 12, 1234, 1235 appear as their decimal
  strings.
* A Python `AttributeError` raised by dereferencing the `None` returned by
  `Query.first()` is modelled as an error result (`none` / `Except.error`),
  carrying the store state already committed at the point of the raise.
* Password hashing and `datetime.utcnow()` come from libraries outside this
  repository; the bootstrap routine takes their results as parameters, since
  the hash is salted and the timestamp changes between runs.
-/

namespace BasicApp3

/-- `User` row (app.py lines 59-75). `roles` is a relationship through the
`user_roles` table, not a column, so it lives on `Store`, not here. -/
structure User where
  id : Nat
  active : Bool
  email : String
  email_confirmed_at : String
  password : String
  first_name : String
  last_name : String
deriving Repr, DecidableEq

/-- `Role` row (app.py lines 78-81). -/
structure Role where
  id : Nat
  name : String
deriving Repr, DecidableEq

/-- `user_roles` association row (app.py lines 84-88). -/
structure UserRoles where
  id : Nat
  user_id : Nat
  role_id : Nat
deriving Repr, DecidableEq

/-- `Category` row (app.py lines 93-96). -/
structure Category where
  id : Nat
  description : String
deriving Repr, DecidableEq

/-- `Book` row (app.py lines 99-107).  `isbn` holds the raw form value, see
the module comment. -/
structure Book where
  id : Nat
  author : String
  title : String
  isbn : String
  description : String
  category_id : Nat
deriving Repr, DecidableEq

/-- The relational store: the five tables, rows in insertion order. -/
structure Store where
  users : List User
  roles : List Role
  user_roles : List UserRoles
  categories : List Category
  books : List Book
deriving Repr, DecidableEq

def emptyStore : Store := ⟨[], [], [], [], []⟩

/-- Largest id present in a list of ids (0 when empty). -/
def maxId (l : List Nat) : Nat := l.foldr max 0

/-- SQLite default rowid for the next `category` insert. -/
def nextCatId (s : Store) : Nat := maxId (s.categories.map Category.id) + 1

/-- SQLite default rowid for the next `book` insert. -/
def nextBookId (s : Store) : Nat := maxId (s.books.map Book.id) + 1

/-- SQLite default rowid for the next `users` insert. -/
def nextUserId (s : Store) : Nat := maxId (s.users.map User.id) + 1

/-- SQLite default rowid for the next `roles` insert. -/
def nextRoleId (s : Store) : Nat := maxId (s.roles.map Role.id) + 1

/-- SQLite default rowid for the next `user_roles` insert. -/
def nextUserRoleId (s : Store) : Nat := maxId (s.user_roles.map UserRoles.id) + 1

/-- ASCII lower-casing of one character, as SQLite's `NOCASE` collation
folds only the 26 ASCII upper-case letters. -/
def lowerChar (c : Char) : Char :=
  if 65 ≤ c.toNat ∧ c.toNat ≤ 90 then Char.ofNat (c.toNat + 32) else c

/-- Case-insensitive comparison used on `NOCASE` email columns. -/
def emailEq (a b : String) : Bool :=
  a.data.map lowerChar == b.data.map lowerChar

/-- The roles of a user, resolved through the `user_roles` secondary table
(the `roles` relationship, app.py line 75). -/
def rolesOfUser (s : Store) (uid : Nat) : List Role :=
  (s.user_roles.filter (fun ur => ur.user_id == uid)).filterMap
    (fun ur => s.roles.find? (fun r => r.id == ur.role_id))

/-- `isAdmin` from the `utility_processor` context processor (app.py lines
270-276).  `User.query.filter_by(email=user).first()` is `find?` on the
users table; when it yields `None` the subsequent `user_object.roles`
dereference raises `AttributeError`, modelled as `none`.  Otherwise the
Python loop leaves `returnValue = 1` exactly when some attached role is
named "Admin", modelled by the fold. -/
def isAdmin (s : Store) (user : String) : Option Nat :=
  match s.users.find? (fun u => emailEq u.email user) with
  | none => none
  | some u =>
      some ((rolesOfUser s u.id).foldl
        (fun acc r => if r.name == "Admin" then 1 else acc) 0)

/-- The get-or-create category fragment shared by `addbook` (app.py lines
201-207) and `edit_book` (lines 244-249): look the description up with
`filter_by(description=...).first()`; if absent, add a new `Category` and
commit at once.  Returns the store after the fragment and the resolved
category row. -/
def getOrCreateCategory (s : Store) (d : String) : Store × Category :=
  match s.categories.find? (fun c => c.description == d) with
  | some c => (s, c)
  | none =>
      let c : Category := ⟨nextCatId s, d⟩
      ({ s with categories := s.categories ++ [c] }, c)

/-- POST branch of `addbook` (app.py lines 194-214): resolve the category,
then insert a `Book` built from the raw form fields — no field is validated
or converted — and commit. -/
def addbook (s : Store) (author title isbn description category_field : String) :
    Store :=
  let sc := getOrCreateCategory s category_field
  let b : Book := ⟨nextBookId sc.1, author, title, isbn, description, sc.2.id⟩
  { sc.1 with books := sc.1.books ++ [b] }

/-- Strict code-point lexicographic order on character lists: SQLite's
BINARY collation (byte order), which agrees with code-point order on the
ASCII data this application stores. -/
def strLt : List Char → List Char → Bool
  | [], [] => false
  | [], _ :: _ => true
  | _ :: _, [] => false
  | a :: as, b :: bs =>
      if a.toNat < b.toNat then true
      else if b.toNat < a.toNat then false
      else strLt as bs

/-- The reflexive closure of `strLt` on strings, for ascending `ORDER BY`. -/
def descLe (a b : String) : Bool := !(strLt b.data a.data)

/-- `db.session.query(Category).order_by(Category.description)` as used by
the `categories` and `addbook` GET views (app.py lines 216, 222). -/
def listCategories (s : Store) : List Category :=
  s.categories.insertionSort
    (fun a b => descLe a.description b.description = true)

/-- The inner join `query(Category, Book).join(Category)` before ordering:
each book paired with the category row its foreign key resolves to; books
whose `category_id` matches no category drop out. -/
def joinPairs (s : Store) : List (Category × Book) :=
  s.books.filterMap
    (fun b => (s.categories.find? (fun c => c.id == b.category_id)).map
      (fun c => (c, b)))

/-- `books` view query (app.py line 183):
`query(Category, Book).join(Category).order_by(Category.id)`. -/
def listBooksWithCategory (s : Store) : List (Category × Book) :=
  (joinPairs s).insertionSort (fun p q => p.1.id ≤ q.1.id)

/-- `seedDB` route (app.py lines 147-168): add the "Horror" and "Sociology"
categories and four books, then commit.  Ids are assigned at commit in
insertion order; the books' `category_id` values are the literals 1, 1, 2, 2
written in the source, not the ids of the two categories just created. -/
def seedDB (s : Store) : Store :=
  let c1 : Category := ⟨nextCatId s, "Horror"⟩
  let s1 : Store := { s with categories := s.categories ++ [c1] }
  let c2 : Category := ⟨nextCatId s1, "Sociology"⟩
  let s2 : Store := { s1 with categories := s1.categories ++ [c2] }
  let n : Nat := nextBookId s2
  let bs : List Book :=
    [⟨n, "Mary Shelly", "Frankenstein", "123",
        "A horror story written by a romantic", 1⟩,
     ⟨n + 1, "Henry James", "The Turn of the Screw", "12",
        "Another British horror story", 1⟩,
     ⟨n + 2, "Karl Marx", "The Communist Manifesto", "1234",
        "The iconic document of communism", 2⟩,
     ⟨n + 3, "Max Weber", "The Protestant Ethic and The Spirit of Capitalism",
        "1235", "Protestantism catalyzed capitalism", 2⟩]
  { s2 with books := s2.books ++ bs }

/-- `eraseDB` route (app.py lines 172-177): delete every `Book` row, then
every `Category` row, then commit. -/
def eraseDB (s : Store) : Store :=
  { s with books := [], categories := [] }

/-- Replace the first book with the given id, as mutating the object
returned by `filter_by(id=...).first()` does. -/
def updateFirstBook (bs : List Book) (bid : Nat) (f : Book → Book) :
    List Book :=
  match bs with
  | [] => []
  | b :: rest =>
      if b.id == bid then f b :: rest else b :: updateFirstBook rest bid f

/-- POST branch of `edit_book` (app.py lines 236-261): run get-or-create on
the category (committing a brand-new category immediately), then look the
book up by the form's id field.  When `first()` returns `None` the
assignment `book.author = author` raises `AttributeError`: modelled as
`Except.error` carrying the store as already committed — the new category,
if one was created, is in.  Otherwise all scalar fields and the category
association are overwritten in place and committed. -/
def edit_book_update (s : Store) (book_id : Nat)
    (author title isbn description category_field : String) :
    Except Store Store :=
  let sc := getOrCreateCategory s category_field
  match sc.1.books.find? (fun b => b.id == book_id) with
  | none => Except.error sc.1
  | some _ =>
      Except.ok { sc.1 with
        books := updateFirstBook sc.1.books book_id
          (fun b => { b with author := author, title := title, isbn := isbn,
                             description := description,
                             category_id := sc.2.id }) }

/-- Guard of the first bootstrap block (app.py line 113):
`User.query.filter(User.email == 'member@example.com').first()`. -/
def memberGuard (s : Store) : Bool :=
  (s.users.find? (fun u => emailEq u.email "member@example.com")).isSome

/-- Guard of the second bootstrap block (app.py line 123). -/
def adminGuard (s : Store) : Bool :=
  (s.users.find? (fun u => emailEq u.email "luke.fernandez@gmail.com")).isSome

/-- Body of the first bootstrap block (app.py lines 114-120): insert the
member user, no roles.  `hpw` and `ts` stand for the hashed password and
`utcnow()` produced by external libraries. -/
def addMemberUser (hpw ts : String) (s : Store) : Store :=
  { s with users :=
      s.users ++ [⟨nextUserId s, true, "member@example.com", ts, hpw, "", ""⟩] }

/-- Body of the second bootstrap block (app.py lines 124-132): insert the
admin user together with freshly created "Admin" and "Agent" roles and the
two join rows the `roles.append` calls produce at commit. -/
def addAdminUser (hpw ts : String) (s : Store) : Store :=
  let uid := nextUserId s
  let rid := nextRoleId s
  let urid := nextUserRoleId s
  { s with
    users :=
      s.users ++ [⟨uid, true, "luke.fernandez@gmail.com", ts, hpw, "", ""⟩],
    roles := s.roles ++ [⟨rid, "Admin"⟩, ⟨rid + 1, "Agent"⟩],
    user_roles := s.user_roles ++ [⟨urid, uid, rid⟩, ⟨urid + 1, uid, rid + 1⟩] }

/-- The user/role bootstrap run inside `create_app` (app.py lines 112-132):
each of the two creations happens only when no user with that email exists
yet.  The hashed passwords and timestamps of the two would-be users are
parameters (they differ run to run). -/
def create_app_seed_users (hpw1 ts1 hpw2 ts2 : String) (s : Store) : Store :=
  let s1 := if memberGuard s then s else addMemberUser hpw1 ts1 s
  if adminGuard s1 then s1 else addAdminUser hpw2 ts2 s1

/-! ## Concrete stores used by the theorems -/

/-- A store holding the two bootstrap users: the member with no roles and
the admin with the "Admin" and "Agent" roles. -/
def demoUsersStore : Store :=
  ⟨[⟨1, true, "member@example.com", "t1", "p1", "", ""⟩,
    ⟨2, true, "luke.fernandez@gmail.com", "t2", "p2", "", ""⟩],
   [⟨1, "Admin"⟩, ⟨2, "Agent"⟩],
   [⟨1, 2, 1⟩, ⟨2, 2, 2⟩], [], []⟩

/-- A store holding one category "A", nothing else. -/
def catStore : Store := ⟨[], [], [], [⟨1, "A"⟩], []⟩

/-- A store whose `category` table is already occupied: ids 1 and 2 belong
to categories other than the demo ones `seedDB` creates. -/
def preoccupiedStore : Store :=
  ⟨[], [], [], [⟨1, "SciFi"⟩, ⟨2, "Poetry"⟩], []⟩

/-! ## Helper lemmas -/

theorem foldr_max_init (a : Nat) (l : List Nat) :
    l.foldr max a = max (l.foldr max 0) a := by
  induction l with
  | nil => simp
  | cons x xs ih => simp [List.foldr, ih, Nat.max_assoc]

theorem maxId_append_singleton (l : List Nat) (x : Nat) :
    maxId (l ++ [x]) = max (maxId l) x := by
  simp only [maxId, List.foldr_append, List.foldr, Nat.max_zero]
  exact foldr_max_init x l

theorem nextCatId_after_insert (s : Store) (d : String) :
    nextCatId { s with categories := s.categories ++ [⟨nextCatId s, d⟩] }
      = nextCatId s + 1 := by
  show maxId ((s.categories ++ [(⟨nextCatId s, d⟩ : Category)]).map Category.id)
        + 1 = nextCatId s + 1
  rw [List.map_append]
  simp only [List.map_cons, List.map_nil]
  rw [maxId_append_singleton]
  show max (maxId (s.categories.map Category.id))
      (maxId (s.categories.map Category.id) + 1) + 1 = _
  rw [Nat.max_eq_right (Nat.le_succ _)]
  rfl

theorem seedDB_books_eq (s : Store) :
    (seedDB s).books = s.books ++
      [⟨nextBookId s, "Mary Shelly", "Frankenstein", "123",
          "A horror story written by a romantic", 1⟩,
       ⟨nextBookId s + 1, "Henry James", "The Turn of the Screw", "12",
          "Another British horror story", 1⟩,
       ⟨nextBookId s + 2, "Karl Marx", "The Communist Manifesto", "1234",
          "The iconic document of communism", 2⟩,
       ⟨nextBookId s + 3, "Max Weber",
          "The Protestant Ethic and The Spirit of Capitalism", "1235",
          "Protestantism catalyzed capitalism", 2⟩] := rfl

/-- The two list queries read only the `category` and `book` tables. -/
theorem listCategories_only_catalog (s : Store) :
    listCategories s = listCategories ⟨[], [], [], s.categories, s.books⟩ := rfl

/-- The join query reads only the `category` and `book` tables. -/
theorem listBooksWithCategory_only_catalog (s : Store) :
    listBooksWithCategory s
      = listBooksWithCategory ⟨[], [], [], s.categories, s.books⟩ := rfl

theorem seedDB_categories_eq (s : Store) :
    (seedDB s).categories = s.categories ++
      [⟨nextCatId s, "Horror"⟩, ⟨nextCatId s + 1, "Sociology"⟩] := by
  show (s.categories ++ [⟨nextCatId s, "Horror"⟩]) ++
      [⟨nextCatId { s with categories := s.categories ++ [⟨nextCatId s, "Horror"⟩] },
        "Sociology"⟩] = _
  rw [nextCatId_after_insert, List.append_assoc]
  rfl

theorem getOrCreateCategory_eq_found {s : Store} {d : String} {c : Category}
    (h : s.categories.find? (fun c => c.description == d) = some c) :
    getOrCreateCategory s d = (s, c) := by
  unfold getOrCreateCategory
  rw [h]

theorem getOrCreateCategory_eq_new {s : Store} {d : String}
    (h : s.categories.find? (fun c => c.description == d) = none) :
    getOrCreateCategory s d
      = ({ s with categories := s.categories ++ [⟨nextCatId s, d⟩] },
         ⟨nextCatId s, d⟩) := by
  unfold getOrCreateCategory
  rw [h]

theorem mem_le_maxId {x : Nat} {l : List Nat} (h : x ∈ l) : x ≤ maxId l := by
  induction l with
  | nil => cases h
  | cons a t ih =>
      rcases List.mem_cons.mp h with h | h
      · subst h; exact Nat.le_max_left _ _
      · exact Nat.le_trans (ih h) (Nat.le_max_right _ _)

theorem nextCatId_not_mem (s : Store) :
    nextCatId s ∉ s.categories.map Category.id := by
  intro hmem
  have := mem_le_maxId hmem
  simp only [nextCatId] at this
  omega

/-- A (category, book) pair whose foreign key resolves appears in the
`all_books` join, provided category ids are unique (the primary-key
invariant the store enforces). -/
theorem pair_mem_listBooksWithCategory {s : Store} {c : Category} {b : Book}
    (hids : (s.categories.map Category.id).Nodup)
    (hc : c ∈ s.categories) (hb : b ∈ s.books) (hcb : b.category_id = c.id) :
    (c, b) ∈ listBooksWithCategory s := by
  unfold listBooksWithCategory
  rw [List.mem_insertionSort]
  unfold joinPairs
  rw [List.mem_filterMap]
  refine ⟨b, hb, ?_⟩
  have hsome : s.categories.find? (fun cc => cc.id == b.category_id)
      = some c := by
    cases hfind : s.categories.find? (fun cc => cc.id == b.category_id) with
    | none =>
        have := List.find?_eq_none.mp hfind c hc
        simp [hcb] at this
    | some c2 =>
        have h2mem := List.mem_of_find?_eq_some hfind
        have h2id : c2.id = b.category_id := by
          simpa using List.find?_some hfind
        have : c2 = c :=
          List.inj_on_of_nodup_map hids h2mem hc (by rw [h2id, hcb])
        rw [this]
  rw [hsome]
  rfl

/-! ## Claims -/

/-- C1: the claim fails on the code.  For an identity with no matching
`users` row, `filter_by(email=...).first()` yields `None` and the following
`user_object.roles` dereference raises an `AttributeError` (result `none`)
instead of signalling "not admin"; the role scan itself does return
"not admin" for a resolved user with no "Admin" role and "admin" when an
attached role is named "Admin". -/
theorem isAdmin_raises_on_unknown_identity :
    isAdmin demoUsersStore "ghost@example.com" = none ∧
    isAdmin demoUsersStore "member@example.com" = some 0 ∧
    isAdmin demoUsersStore "luke.fernandez@gmail.com" = some 1 :=
  ⟨rfl, rfl, rfl⟩

/-- C2: the claim fails on the code.  Updating a nonexistent book id after
naming a category that does not exist yet first commits the brand-new
`Category` row, then raises `AttributeError` on the `None` returned by the
book lookup — the call fails, but not with a `NotFoundError`, and the store
is left changed: the new category row persists. -/
theorem edit_book_update_missing_book_changes_store :
    edit_book_update emptyStore 1 "a" "t" "9" "d" "NewCat"
      = Except.error ⟨[], [], [], [⟨1, "NewCat"⟩], []⟩ ∧
    (⟨[], [], [], [⟨1, "NewCat"⟩], []⟩ : Store) ≠ emptyStore :=
  ⟨rfl, by decide⟩

/-- C3: get-or-create on a category description behaves as claimed: the
returned category carries the requested description; when a category with
that exact (case-sensitive) description exists it is returned with the
store untouched; when none exists exactly one new row is appended; a second
call with the same description returns the same category id and changes
nothing; and `listCategories` shows no duplicate description afterwards
(assuming, as the natural-key reading of the claim requires, that the store
held no duplicate description beforehand). -/
theorem getOrCreateCategory_idempotent (s : Store) (d : String)
    (hnd : (s.categories.map Category.description).Nodup) :
    (getOrCreateCategory s d).2.description = d ∧
    (∀ c ∈ s.categories, c.description = d →
      getOrCreateCategory s d = (s, c)) ∧
    ((∀ c ∈ s.categories, c.description ≠ d) →
      (getOrCreateCategory s d).1.categories
        = s.categories ++ [⟨nextCatId s, d⟩]) ∧
    getOrCreateCategory (getOrCreateCategory s d).1 d
      = getOrCreateCategory s d ∧
    ((listCategories (getOrCreateCategory s d).1).map
      Category.description).Nodup := by
  have hperm : ∀ s' : Store, List.Perm (listCategories s') s'.categories :=
    fun s' => List.perm_insertionSort _ _
  cases hfind : s.categories.find? (fun c => c.description == d) with
  | some c =>
      have heq := getOrCreateCategory_eq_found hfind
      have hcd : c.description = d := by
        have := List.find?_some hfind
        simpa using this
      have hcm := List.mem_of_find?_eq_some hfind
      rw [heq]
      refine ⟨hcd, ?_, ?_, ?_, ?_⟩
      · intro c2 hc2 hc2d
        have : c = c2 :=
          List.inj_on_of_nodup_map hnd hcm hc2 (hcd.trans hc2d.symm)
        rw [this]
      · intro hnone
        exact absurd hcd (hnone c hcm)
      · exact getOrCreateCategory_eq_found hfind
      · exact (((hperm s).map Category.description).nodup_iff).mpr hnd
  | none =>
      have heq := getOrCreateCategory_eq_new hfind
      have hall : ∀ c ∈ s.categories, c.description ≠ d := by
        intro c hc
        have := List.find?_eq_none.mp hfind c hc
        simpa using this
      have hnotin : d ∉ s.categories.map Category.description := by
        intro hmem
        obtain ⟨c, hc, hcd⟩ := List.mem_map.mp hmem
        exact hall c hc hcd
      have hnd1 : ((s.categories ++ [(⟨nextCatId s, d⟩ : Category)]).map
          Category.description).Nodup := by
        rw [List.map_append]
        simp [List.nodup_append, hnd, hnotin]
      rw [heq]
      refine ⟨rfl, ?_, fun _ => rfl, ?_, ?_⟩
      · intro c2 hc2 hc2d
        exact absurd hc2d (hall c2 hc2)
      · have hfind2 : ((s.categories ++ [(⟨nextCatId s, d⟩ : Category)]).find?
            (fun c => c.description == d)) = some ⟨nextCatId s, d⟩ := by
          rw [List.find?_append, hfind]
          simp [List.find?]
        exact getOrCreateCategory_eq_found hfind2
      · exact (((hperm _).map Category.description).nodup_iff).mpr hnd1

/-- A closed instance of `getOrCreateCategory_idempotent`: one category
"A" in the store, get-or-create on "B". -/
theorem getOrCreateCategory_idempotent_witness :
    ((catStore.categories.map Category.description).Nodup) ∧
    ((getOrCreateCategory catStore "B").2.description = "B" ∧
     (∀ c ∈ catStore.categories, c.description = "B" →
       getOrCreateCategory catStore "B" = (catStore, c)) ∧
     ((∀ c ∈ catStore.categories, c.description ≠ "B") →
       (getOrCreateCategory catStore "B").1.categories
         = catStore.categories ++ [⟨nextCatId catStore, "B"⟩]) ∧
     getOrCreateCategory (getOrCreateCategory catStore "B").1 "B"
       = getOrCreateCategory catStore "B" ∧
     ((listCategories (getOrCreateCategory catStore "B").1).map
       Category.description).Nodup) :=
  ⟨by decide, getOrCreateCategory_idempotent catStore "B" (by decide)⟩

/-- C4: the claim fails on the code.  `addbook` performs no validation at
all: with every required field empty and an isbn that does not parse as an
integer, no `ValidationError` is raised and a `Book` row is inserted
carrying the raw malformed values. -/
theorem addbook_inserts_unvalidated_fields :
    addbook emptyStore "" "" "not-a-number" "" "NewCat"
      = ⟨[], [], [], [⟨1, "NewCat"⟩], [⟨1, "", "", "not-a-number", "", 1⟩]⟩ := by
  decide

/-- C6: for every store (with the primary-key invariant that category ids
are unique) and every input, `addbook` followed by the `all_books` join
yields a pair whose book fields equal the inputs exactly and whose category
description equals the input category field. -/
theorem addbook_lists_inserted_pair (s : Store)
    (hids : (s.categories.map Category.id).Nodup)
    (author title isbn description category_field : String) :
    ∃ p ∈ listBooksWithCategory
        (addbook s author title isbn description category_field),
      p.2.author = author ∧ p.2.title = title ∧ p.2.isbn = isbn ∧
      p.2.description = description ∧ p.1.description = category_field := by
  cases hfind : s.categories.find? (fun c => c.description == category_field)
  with
  | some c =>
      have heq := getOrCreateCategory_eq_found hfind
      have hcd : c.description = category_field := by
        simpa using List.find?_some hfind
      have hcm := List.mem_of_find?_eq_some hfind
      have haddb : addbook s author title isbn description category_field
          = { s with books := s.books ++
              [⟨nextBookId s, author, title, isbn, description, c.id⟩] } := by
        unfold addbook
        rw [heq]
      rw [haddb]
      refine ⟨(c, ⟨nextBookId s, author, title, isbn, description, c.id⟩),
        ?_, rfl, rfl, rfl, rfl, hcd⟩
      exact pair_mem_listBooksWithCategory hids hcm (by simp) rfl
  | none =>
      have heq := getOrCreateCategory_eq_new hfind
      have hids1 : ((s.categories ++ [(⟨nextCatId s, category_field⟩ :
          Category)]).map Category.id).Nodup := by
        rw [List.map_append]
        simp [List.nodup_append, hids, nextCatId_not_mem s]
      have haddb : addbook s author title isbn description category_field
          = { s with
              categories := s.categories ++ [⟨nextCatId s, category_field⟩],
              books := s.books ++
                [⟨nextBookId s, author, title, isbn, description,
                  nextCatId s⟩] } := by
        unfold addbook
        rw [heq]
        rfl
      rw [haddb]
      refine ⟨(⟨nextCatId s, category_field⟩,
        ⟨nextBookId s, author, title, isbn, description, nextCatId s⟩),
        ?_, rfl, rfl, rfl, rfl, rfl⟩
      exact pair_mem_listBooksWithCategory hids1 (by simp) (by simp) rfl

/-- A closed instance of `addbook_lists_inserted_pair` at `emptyStore`. -/
theorem addbook_lists_inserted_pair_witness :
    ((emptyStore.categories.map Category.id).Nodup) ∧
    (∃ p ∈ listBooksWithCategory
        (addbook emptyStore "au" "ti" "42" "de" "ca"),
      p.2.author = "au" ∧ p.2.title = "ti" ∧ p.2.isbn = "42" ∧
      p.2.description = "de" ∧ p.1.description = "ca") :=
  ⟨by decide,
   addbook_lists_inserted_pair emptyStore (by decide) "au" "ti" "42" "de" "ca"⟩

/-- C7: after `eraseDB` the `book` and `category` tables are both empty, so
`listCategories` and `listBooksWithCategory` both return empty sequences,
from every starting store. -/
theorem eraseDB_empties_catalog (s : Store) :
    (eraseDB s).books = [] ∧ (eraseDB s).categories = [] ∧
    listCategories (eraseDB s) = [] ∧ listBooksWithCategory (eraseDB s) = [] :=
  ⟨rfl, rfl, rfl, rfl⟩

/-- C10: `eraseDB` touches only the `book` and `category` tables; the
`users`, `roles` and `user_roles` tables are unchanged for every store. -/
theorem eraseDB_preserves_user_tables (s : Store) :
    (eraseDB s).users = s.users ∧ (eraseDB s).roles = s.roles ∧
    (eraseDB s).user_roles = s.user_roles :=
  ⟨rfl, rfl, rfl⟩

/-- C5: from an empty catalog (no `category` and no `book` rows), one
`seedDB` call makes `listCategories` return exactly the descriptions
"Horror", "Sociology" in ascending order, and `listBooksWithCategory`
return exactly 4 pairs ordered ascending by category id, with the book
titled "Frankenstein" paired with the "Horror" category. -/
theorem seedDB_from_empty_catalog (s : Store)
    (hc : s.categories = []) (hb : s.books = []) :
    (listCategories (seedDB s)).map Category.description
      = ["Horror", "Sociology"] ∧
    (listBooksWithCategory (seedDB s)).length = 4 ∧
    (listBooksWithCategory (seedDB s)).map (fun p => p.1.id) = [1, 1, 2, 2] ∧
    ∃ p ∈ listBooksWithCategory (seedDB s),
      p.2.title = "Frankenstein" ∧ p.1.description = "Horror" := by
  obtain ⟨us, rs, urs, cs, bs⟩ := s
  cases hc
  cases hb
  have h1 : (seedDB (⟨us, rs, urs, [], []⟩ : Store)).categories
      = [⟨1, "Horror"⟩, ⟨2, "Sociology"⟩] := rfl
  have h2 : (seedDB (⟨us, rs, urs, [], []⟩ : Store)).books
      = [⟨1, "Mary Shelly", "Frankenstein", "123",
            "A horror story written by a romantic", 1⟩,
         ⟨2, "Henry James", "The Turn of the Screw", "12",
            "Another British horror story", 1⟩,
         ⟨3, "Karl Marx", "The Communist Manifesto", "1234",
            "The iconic document of communism", 2⟩,
         ⟨4, "Max Weber",
            "The Protestant Ethic and The Spirit of Capitalism", "1235",
            "Protestantism catalyzed capitalism", 2⟩] := rfl
  rw [listCategories_only_catalog, listBooksWithCategory_only_catalog, h1, h2]
  decide

/-- A closed instance of `seedDB_from_empty_catalog` at `emptyStore`. -/
theorem seedDB_from_empty_catalog_witness :
    (emptyStore.categories = [] ∧ emptyStore.books = []) ∧
    ((listCategories (seedDB emptyStore)).map Category.description
        = ["Horror", "Sociology"] ∧
     (listBooksWithCategory (seedDB emptyStore)).length = 4 ∧
     (listBooksWithCategory (seedDB emptyStore)).map (fun p => p.1.id)
        = [1, 1, 2, 2] ∧
     ∃ p ∈ listBooksWithCategory (seedDB emptyStore),
       p.2.title = "Frankenstein" ∧ p.1.description = "Horror") :=
  ⟨⟨rfl, rfl⟩, seedDB_from_empty_catalog emptyStore rfl rfl⟩

/-- C9: the four book rows `seedDB` inserts carry the literal `category_id`
values 1, 1, 2, 2 from the source, for every starting store, while the two
category rows it creates receive whatever ids the table's rowid counter
assigns; in particular on `preoccupiedStore` (ids 1 and 2 already taken by
"SciFi" and "Poetry") the new "Horror" row gets id 3 and "Frankenstein" is
listed under "SciFi", not under "Horror". -/
theorem seedDB_books_use_literal_category_ids (s : Store) :
    ((seedDB s).books.drop s.books.length).map Book.category_id
      = [1, 1, 2, 2] ∧
    ((seedDB s).categories.drop s.categories.length).map Category.id
      = [nextCatId s, nextCatId s + 1] ∧
    (∀ c ∈ (seedDB preoccupiedStore).categories,
      c.description = "Horror" → c.id = 3) ∧
    ∃ p ∈ listBooksWithCategory (seedDB preoccupiedStore),
      p.2.title = "Frankenstein" ∧ p.1.description = "SciFi" := by
  refine ⟨?_, ?_, by decide, by decide⟩
  · rw [seedDB_books_eq, List.drop_left]
    rfl
  · rw [seedDB_categories_eq, List.drop_left]
    rfl

theorem find?_isSome_append_left {α} {p : α → Bool} {l1 : List α}
    (l2 : List α) (h : (l1.find? p).isSome = true) :
    ((l1 ++ l2).find? p).isSome = true := by
  simp only [List.find?_isSome] at h ⊢
  obtain ⟨u, hu, hp⟩ := h
  exact ⟨u, List.mem_append_left _ hu, hp⟩

theorem find?_isSome_append_right {α} {p : α → Bool} (l1 : List α)
    {l2 : List α} (h : (l2.find? p).isSome = true) :
    ((l1 ++ l2).find? p).isSome = true := by
  simp only [List.find?_isSome] at h ⊢
  obtain ⟨u, hu, hp⟩ := h
  exact ⟨u, List.mem_append_right _ hu, hp⟩

theorem emailEq_refl (a : String) : emailEq a a = true := by
  simp [emailEq]

theorem memberGuard_addMemberUser (hpw ts : String) (s : Store) :
    memberGuard (addMemberUser hpw ts s) = true := by
  unfold memberGuard addMemberUser
  apply find?_isSome_append_right
  simp [List.find?, emailEq_refl]

theorem memberGuard_addAdminUser (hpw ts : String) (s : Store)
    (h : memberGuard s = true) :
    memberGuard (addAdminUser hpw ts s) = true := by
  unfold memberGuard at h ⊢
  unfold addAdminUser
  exact find?_isSome_append_left _ h

theorem adminGuard_addAdminUser (hpw ts : String) (s : Store) :
    adminGuard (addAdminUser hpw ts s) = true := by
  unfold adminGuard addAdminUser
  apply find?_isSome_append_right
  simp [List.find?, emailEq_refl]

/-- After one bootstrap run, both guarded emails resolve: the guards of any
later run are satisfied. -/
theorem seed_users_guards (hpw1 ts1 hpw2 ts2 : String) (s : Store) :
    memberGuard (create_app_seed_users hpw1 ts1 hpw2 ts2 s) = true ∧
    adminGuard (create_app_seed_users hpw1 ts1 hpw2 ts2 s) = true := by
  unfold create_app_seed_users
  cases h1 : memberGuard s with
  | true =>
      simp only [h1, if_true]
      cases h2 : adminGuard s with
      | true => simp [h2, h1]
      | false =>
          simp [h2, memberGuard_addAdminUser hpw2 ts2 s h1,
            adminGuard_addAdminUser]
  | false =>
      simp only [h1, Bool.false_eq_true, if_false]
      cases h2 : adminGuard (addMemberUser hpw1 ts1 s) with
      | true => simp [h2, memberGuard_addMemberUser]
      | false =>
          simp [h2,
            memberGuard_addAdminUser hpw2 ts2 _
              (memberGuard_addMemberUser hpw1 ts1 s),
            adminGuard_addAdminUser]

/-- When both guards already hold, the bootstrap run is the identity. -/
theorem create_app_seed_users_of_guards {s : Store}
    (hm : memberGuard s = true) (ha : adminGuard s = true)
    (hpw1 ts1 hpw2 ts2 : String) :
    create_app_seed_users hpw1 ts1 hpw2 ts2 s = s := by
  simp [create_app_seed_users, hm, ha]

/-- C8: the user/role bootstrap is idempotent: each of its two user
creations is guarded by an email existence check, so running it again after
it has run once — with whatever hashed passwords and timestamps the second
run produces — creates no row at all: the resulting store, its `users`,
`roles` and `user_roles` tables included, is exactly the store the first
run left. -/
theorem create_app_seed_users_idempotent
    (hpw1 ts1 hpw2 ts2 hpw3 ts3 hpw4 ts4 : String) (s : Store) :
    create_app_seed_users hpw3 ts3 hpw4 ts4
        (create_app_seed_users hpw1 ts1 hpw2 ts2 s)
      = create_app_seed_users hpw1 ts1 hpw2 ts2 s :=
  create_app_seed_users_of_guards
    (seed_users_guards hpw1 ts1 hpw2 ts2 s).1
    (seed_users_guards hpw1 ts1 hpw2 ts2 s).2 hpw3 ts3 hpw4 ts4

end BasicApp3
